import Mathlib

/-!
Shallow embedding of the Meridian paper-trading core (src/src/paper) in Lean 4.

Conventions of the embedding:
* JavaScript numbers (used for money, rates, leverage) are modelled as `ℚ`;
  all arithmetic in the sources is +, -, *, /, min, max, abs, so `ℚ` is exact.
* Timestamps (ISO strings / `Date.now()` in the source) are modelled as
  milliseconds since the epoch, `ℤ`.  `setDate(getDate() + d)` is modelled as
  adding `d * 86400000` ms, and an ISO calendar date (the `YYYY-MM-DD` prefix
  of a timestamp) as the floor-division of the timestamp by a day.
* Trade ids (`randomUUID()` strings) are modelled as `ℕ`; the uniqueness that
  `randomUUID` provides is a hypothesis of the transition system's open step.
* Nullable fields (`T | null`) are `Option`; the JS idiom `x ?? 0` is
  `Option.getD x 0`, and `new Date(null)` (the epoch) makes
  `Option.getD exitTime 0` the exact model of `new Date(t.exitTime!)` even
  when `exitTime` is null.
* In-place mutation of a trade object shared between the caller and the
  ledger array (`closeTrade`) is modelled by replacing, in the ledger list,
  every trade carrying the mutated trade's id.
* File persistence (`saveTrades`/`saveState`/`writeFileSync`) and logging are
  outside the model: functions return the post states instead of writing them.
-/

namespace Meridian

/-- Milliseconds in one hour (the source divides by `1000 * 60 * 60`). -/
def hourMs : ℤ := 3600000

/-- Milliseconds in one day. -/
def dayMs : ℤ := 86400000

/-- Calendar date of a timestamp, as a day index: the model of the
`YYYY-MM-DD` prefix of an ISO timestamp string. -/
def dateOf (t : ℤ) : ℤ := Int.fdiv t dayMs

/-- Model of `Math.min` on rationals (definitionally an `if`, so that concrete
instances evaluate by `decide`; equal to `min`, see `qmin_eq_min`). -/
def qmin (a b : ℚ) : ℚ := if a ≤ b then a else b

/-- Model of `Math.max` on rationals (equal to `max`, see `qmax_eq_max`). -/
def qmax (a b : ℚ) : ℚ := if a ≤ b then b else a

/-- Model of `Math.abs` on rationals (equal to `|·|`, see `qabs_eq_abs`). -/
def qabs (a : ℚ) : ℚ := if a < 0 then -a else a

-- ===========================================================================
-- src/paper/types.ts
-- ===========================================================================

/-- TradeStatus from types.ts: `'OPEN' | 'CLOSED'`. -/
inductive TradeStatus
  | OPEN
  | CLOSED
deriving DecidableEq

/-- TradeDirection from types.ts: `'LONG' | 'SHORT'`. -/
inductive TradeDirection
  | LONG
  | SHORT
deriving DecidableEq

/-- Exit reason from types.ts: `'TIME_BASED' | 'MANUAL' | 'STOP_LOSS'`. -/
inductive ExitReason
  | TIME_BASED
  | MANUAL
  | STOP_LOSS
deriving DecidableEq

/-- PaperTrade from types.ts. -/
structure PaperTrade where
  id : ℕ
  coin : String
  direction : TradeDirection
  strategy : String
  status : TradeStatus
  entryTime : ℤ
  entryApr : ℚ
  entryImpliedApr : ℚ
  entryZScore : ℚ
  notionalSize : ℚ
  leverage : ℚ
  targetHoldDays : ℤ
  scheduledExitTime : ℤ
  exitTime : Option ℤ
  exitApr : Option ℚ
  exitZScore : Option ℚ
  exitReason : Option ExitReason
  realizedPnl : Option ℚ
  unrealizedPnl : ℚ
  fees : ℚ
deriving DecidableEq

/-- PaperState from types.ts. -/
structure PaperState where
  openPositions : List ℕ
  currentEquity : ℚ
  startingCapital : ℚ
  peakEquity : ℚ
  lastUpdated : ℤ
deriving DecidableEq

/-- RiskConfig from types.ts. -/
structure RiskConfig where
  maxPositionSize : ℚ
  maxConcurrentPositions : ℕ
  maxTotalExposure : ℚ
  stopLossThreshold : ℚ
  maxDrawdown : ℚ
  maxLeverage : ℚ
  consecutiveLossLimit : ℕ
  cooldownDays : ℤ
deriving DecidableEq

/-- TradeAlert from alerts/notifiers.ts (the fields `open` consumes). -/
structure TradeAlert where
  type : String
  coin : String
  direction : TradeDirection
  currentApr : ℚ
  impliedApr : ℚ
  zScore : ℚ
  meanApr : ℚ
  stdDev : ℚ
  spread : ℚ
  holdDays : ℤ
  timestamp : ℤ
deriving DecidableEq

-- ===========================================================================
-- src/paper/leverage.ts
-- ===========================================================================

/-- LeverageConfig from leverage.ts.  The strategy selector is a string at
runtime (`process.env.PAPER_LEVERAGE_STRATEGY` cast to the union type), so it
is modelled as `String`, which keeps the `default:` branch of the `switch` in
`calculateLeverage` reachable exactly as in the source. -/
structure LeverageConfig where
  strategy : String
  fixedLeverage : ℚ
  maxLeverage : ℚ
deriving DecidableEq

/-- signalStrengthLeverage from leverage.ts. -/
def signalStrengthLeverage (zScore : ℚ) : ℚ :=
  let absZ := qabs zScore
  if 3 ≤ absZ then 6
  else if 5/2 ≤ absZ then 4
  else if 2 ≤ absZ then 2
  else 1

/-- profitStackMultiplier from leverage.ts. -/
def profitStackMultiplier (currentEquity startingEquity : ℚ) : ℚ :=
  let ratio := currentEquity / startingEquity
  if 6/5 ≤ ratio then 3/2
  else if 11/10 ≤ ratio then 5/4
  else if ratio ≤ 9/10 then 1/2
  else 1

/-- calculateLeverage from leverage.ts. -/
def calculateLeverage (config : LeverageConfig) (zScore currentEquity startingEquity : ℚ) : ℚ :=
  let leverage : ℚ :=
    if config.strategy = "fixed" then config.fixedLeverage
    else if config.strategy = "signal_strength" then signalStrengthLeverage zScore
    else if config.strategy = "profit_stack" then
      2 * profitStackMultiplier currentEquity startingEquity
    else if config.strategy = "combined" then
      signalStrengthLeverage zScore * profitStackMultiplier currentEquity startingEquity
    else 1
  qmax (qmin leverage config.maxLeverage) 1

-- ===========================================================================
-- src/paper/tracker.ts
-- ===========================================================================

/-- DEFAULT_STARTING_CAPITAL from tracker.ts. -/
def DEFAULT_STARTING_CAPITAL : ℚ := 10000

/-- DEFAULT_POSITION_SIZE from tracker.ts. -/
def DEFAULT_POSITION_SIZE : ℚ := 1000

/-- TAKER_FEE_RATE from tracker.ts (`0.001`, charged once per side). -/
def TAKER_FEE_RATE : ℚ := 1/1000

/-- Rejection reasons produced by `canOpenTrade`.  The source returns template
strings; each constructor carries exactly the data interpolated into the
corresponding template, so "the reason contains the cooldown end date" is the
statement that the `cooldown` constructor carries that date. -/
inductive RejectReason
  | maxConcurrent (limit : ℕ)
  | alreadyOpenInCoin (coin : String)
  | maxExposureReached (maxTotalExposure : ℚ)
  | maxDrawdownReached (maxDrawdown : ℚ)
  | cooldown (coin : String) (cooldownEnd : ℤ) (limit : ℕ)
deriving DecidableEq

/-- Model of `arr.slice(-n)`: the last `n` elements, the whole list when
`n = 0` (JavaScript `slice(-0)` is `slice(0)`). -/
def sliceLast (n : ℕ) (xs : List PaperTrade) : List PaperTrade :=
  if n = 0 then xs else xs.drop (xs.length - n)

/-- canOpenTrade from tracker.ts.  `none` means `{allowed: true}`; `some r`
means `{allowed: false, reason: r}`.  `now` is the `new Date()` the source
takes inside the cooldown check. -/
def canOpenTrade (state : PaperState) (trades : List PaperTrade) (coin : String)
    (riskConfig : RiskConfig) (now : ℤ) : Option RejectReason :=
  if riskConfig.maxConcurrentPositions ≤ state.openPositions.length then
    some (.maxConcurrent riskConfig.maxConcurrentPositions)
  else
    let openTrades := trades.filter (fun t => decide (t.id ∈ state.openPositions))
    if ∃ t ∈ openTrades, t.coin = coin then
      some (.alreadyOpenInCoin coin)
    else
      let totalExposure := (openTrades.map (fun t => t.notionalSize)).sum
      let maxExposure := state.currentEquity * riskConfig.maxTotalExposure
      if maxExposure ≤ totalExposure then
        some (.maxExposureReached riskConfig.maxTotalExposure)
      else
        let currentDrawdown := (state.peakEquity - state.currentEquity) / state.peakEquity
        if qabs riskConfig.maxDrawdown ≤ currentDrawdown then
          some (.maxDrawdownReached riskConfig.maxDrawdown)
        else
          let recentTrades := sliceLast riskConfig.consecutiveLossLimit
            (trades.filter (fun t => decide (t.coin = coin ∧ t.status = TradeStatus.CLOSED)))
          if recentTrades.length = riskConfig.consecutiveLossLimit ∧
              ∀ t ∈ recentTrades, t.realizedPnl.getD 0 < 0 then
            match recentTrades.getLast? with
            | some lastLoss =>
              let cooldownEnd := lastLoss.exitTime.getD 0 + riskConfig.cooldownDays * dayMs
              if now < cooldownEnd then
                some (.cooldown coin cooldownEnd riskConfig.consecutiveLossLimit)
              else none
            | none => none
          else none

/-- Result of `openTrade`: the source's `{trade, reason?}` return value plus
the post account state and post ledger (the source mutates these in place). -/
structure OpenResult where
  trade : Option PaperTrade
  reason : Option RejectReason
  state : PaperState
  trades : List PaperTrade
deriving DecidableEq

/-- openTrade from tracker.ts.  `leverageConfig` stands for
`loadLeverageConfig()` (read from the environment in the source), `now` for
`new Date()`, and `newId` for `randomUUID()`. -/
def openTrade (alert : TradeAlert) (state : PaperState) (trades : List PaperTrade)
    (riskConfig : RiskConfig) (leverageConfig : LeverageConfig)
    (positionSize : Option ℚ) (now : ℤ) (newId : ℕ) : OpenResult :=
  match canOpenTrade state trades alert.coin riskConfig now with
  | some r => ⟨none, some r, state, trades⟩
  | none =>
    let leverage := calculateLeverage leverageConfig alert.zScore
      state.currentEquity state.startingCapital
    let finalLeverage := qmin leverage riskConfig.maxLeverage
    let maxSize := state.currentEquity * riskConfig.maxPositionSize
    let baseSize := positionSize.getD DEFAULT_POSITION_SIZE
    let collateral := qmin baseSize maxSize
    let notionalSize := collateral * finalLeverage
    let entryFee := notionalSize * TAKER_FEE_RATE
    let trade : PaperTrade :=
      { id := newId
        coin := alert.coin
        direction := alert.direction
        strategy := alert.type
        status := TradeStatus.OPEN
        entryTime := now
        entryApr := alert.currentApr
        entryImpliedApr := alert.impliedApr
        entryZScore := alert.zScore
        notionalSize := notionalSize
        leverage := finalLeverage
        targetHoldDays := alert.holdDays
        scheduledExitTime := now + alert.holdDays * dayMs
        exitTime := none
        exitApr := none
        exitZScore := none
        exitReason := none
        realizedPnl := none
        unrealizedPnl := 0
        fees := entryFee }
    let state2 := { state with
      openPositions := state.openPositions ++ [newId]
      lastUpdated := now }
    ⟨some trade, none, state2, trades ++ [trade]⟩

/-- calculatePnl from tracker.ts. -/
def calculatePnl (trade : PaperTrade) (currentApr : ℚ) (hoursHeld : ℚ) : ℚ :=
  let hourlyFixed := trade.entryApr / 8760
  let hourlyFloating := currentApr / 8760
  match trade.direction with
  | TradeDirection.SHORT => (hourlyFixed - hourlyFloating) * trade.notionalSize * hoursHeld
  | TradeDirection.LONG => (hourlyFloating - hourlyFixed) * trade.notionalSize * hoursHeld

/-- Result of `closeTrade`: the mutated trade object plus the post account
state and post ledger. -/
structure CloseResult where
  trade : PaperTrade
  state : PaperState
  trades : List PaperTrade
deriving DecidableEq

/-- closeTrade from tracker.ts.  `now` stands for both `Date.now()` (hours
held) and `new Date()` (exit time).  The source mutates the trade object,
which the ledger array holds by reference; this is modelled by replacing every
ledger entry that carries the trade's id. -/
def closeTrade (trade : PaperTrade) (state : PaperState) (trades : List PaperTrade)
    (exitApr : ℚ) (exitZScore : ℚ) (exitReason : ExitReason) (now : ℤ) : CloseResult :=
  let hoursHeld : ℚ := ((now - trade.entryTime : ℤ) : ℚ) / ((hourMs : ℤ) : ℚ)
  let grossPnl := calculatePnl trade exitApr hoursHeld
  let exitFee := trade.notionalSize * TAKER_FEE_RATE
  let newFees := trade.fees + exitFee
  let netPnl := grossPnl - newFees
  let closed : PaperTrade := { trade with
    status := TradeStatus.CLOSED
    exitTime := some now
    exitApr := some exitApr
    exitZScore := some exitZScore
    exitReason := some exitReason
    realizedPnl := some netPnl
    unrealizedPnl := 0
    fees := newFees }
  let newEquity := state.currentEquity + netPnl
  let state2 := { state with
    openPositions := state.openPositions.filter (fun i => decide (i ≠ trade.id))
    currentEquity := newEquity
    peakEquity := if state.peakEquity < newEquity then newEquity else state.peakEquity
    lastUpdated := now }
  ⟨closed, state2, trades.map (fun t => if t.id = trade.id then closed else t)⟩

/-- getClosedTrades from tracker.ts. -/
def getClosedTrades (trades : List PaperTrade) : List PaperTrade :=
  trades.filter (fun t => decide (t.status = TradeStatus.CLOSED))

/-- getOpenTrades from tracker.ts. -/
def getOpenTrades (trades : List PaperTrade) (state : PaperState) : List PaperTrade :=
  trades.filter (fun t => decide (t.id ∈ state.openPositions))

-- ===========================================================================
-- The trade-lifecycle transition system
-- ===========================================================================

/-- Initial account state of `loadState` when no state file exists:
`equity = peak = startingCapital`, no open positions.  `t0` models the
`new Date()` written into `lastUpdated`. -/
def initialState (t0 : ℤ) : PaperState :=
  ⟨[], DEFAULT_STARTING_CAPITAL, DEFAULT_STARTING_CAPITAL, DEFAULT_STARTING_CAPITAL, t0⟩

/-- One operation of the lifecycle: an `openTrade` call (with a ledger-fresh
id, modelling `randomUUID`'s uniqueness — rejected opens are included, they
leave the pair unchanged), or a `closeTrade` call on a ledger trade that is
still `OPEN` (the callers in tracker.ts and the CLI only ever close trades
drawn from the open-position set). -/
inductive Step : PaperState × List PaperTrade → PaperState × List PaperTrade → Prop
  | openStep (alert : TradeAlert) (s : PaperState) (tr : List PaperTrade)
      (riskConfig : RiskConfig) (leverageConfig : LeverageConfig)
      (positionSize : Option ℚ) (now : ℤ) (newId : ℕ)
      (hfresh : ∀ t ∈ tr, t.id ≠ newId) :
      Step (s, tr)
        ((openTrade alert s tr riskConfig leverageConfig positionSize now newId).state,
         (openTrade alert s tr riskConfig leverageConfig positionSize now newId).trades)
  | closeStep (trade : PaperTrade) (s : PaperState) (tr : List PaperTrade)
      (exitApr exitZScore : ℚ) (exitReason : ExitReason) (now : ℤ)
      (hmem : trade ∈ tr) (hopen : trade.status = TradeStatus.OPEN) :
      Step (s, tr)
        ((closeTrade trade s tr exitApr exitZScore exitReason now).state,
         (closeTrade trade s tr exitApr exitZScore exitReason now).trades)

/-- Reachability from the initial state by a sequence of open/close calls. -/
def Reachable (t0 : ℤ) (p : PaperState × List PaperTrade) : Prop :=
  Relation.ReflTransGen Step (initialState t0, ([] : List PaperTrade)) p

/-- Sum of `realizedPnl` over the `CLOSED` trades of a ledger. -/
def closedRealizedSum (trades : List PaperTrade) : ℚ :=
  ((getClosedTrades trades).map (fun t => t.realizedPnl.getD 0)).sum

-- ===========================================================================
-- src/paper/metrics.ts
-- ===========================================================================

/-- PrimaryMetrics from types.ts.  The `sharpeRatio` field is omitted from the
embedding: `calculateSharpeRatio` divides by a floating-point square root
(an irrational quantity), and no statement below refers to it. -/
structure PrimaryMetrics where
  winRate : ℚ
  avgWinLossRatio : ℚ
  maxDrawdown : ℚ
  totalRealizedPnl : ℚ
  totalUnrealizedPnl : ℚ
  totalTrades : ℕ
  wins : ℕ
  losses : ℕ
deriving DecidableEq

/-- calculateMaxDrawdown from metrics.ts.  The JavaScript `sort` comparator on
exit times is modelled by a stable merge sort on the same key. -/
def calculateMaxDrawdown (closedTrades : List PaperTrade) (state : PaperState) : ℚ :=
  if closedTrades.length = 0 then 0
  else
    let sortedTrades := List.mergeSort
      (closedTrades.filter (fun t => t.exitTime.isSome))
      (fun a b => decide (a.exitTime.getD 0 ≤ b.exitTime.getD 0))
    let final := sortedTrades.foldl
      (fun (acc : ℚ × ℚ × ℚ) trade =>
        let equity := acc.1 + trade.realizedPnl.getD 0
        let peak := if acc.2.1 < equity then equity else acc.2.1
        let drawdown := (peak - equity) / peak
        let maxDrawdown := if acc.2.2 < drawdown then drawdown else acc.2.2
        (equity, peak, maxDrawdown))
      (state.startingCapital, state.startingCapital, 0)
    final.2.2 * 100

/-- calculatePrimaryMetrics from metrics.ts (minus the omitted
`sharpeRatio` field). -/
def calculatePrimaryMetrics (trades : List PaperTrade) (state : PaperState) : PrimaryMetrics :=
  let closedTrades := getClosedTrades trades
  let openTrades := getOpenTrades trades state
  let wins := closedTrades.filter (fun t => decide (0 < t.realizedPnl.getD 0))
  let losses := closedTrades.filter (fun t => decide (t.realizedPnl.getD 0 ≤ 0))
  let winRate : ℚ :=
    if 0 < closedTrades.length then ((wins.length : ℚ) / (closedTrades.length : ℚ)) * 100
    else 0
  let avgWin : ℚ :=
    if 0 < wins.length then (wins.map (fun t => t.realizedPnl.getD 0)).sum / (wins.length : ℚ)
    else 0
  let avgLoss : ℚ :=
    if 0 < losses.length then
      qabs ((losses.map (fun t => t.realizedPnl.getD 0)).sum / (losses.length : ℚ))
    else 1
  let avgWinLossRatio := if 0 < avgLoss then avgWin / avgLoss else avgWin
  { winRate := winRate
    avgWinLossRatio := avgWinLossRatio
    maxDrawdown := calculateMaxDrawdown closedTrades state
    totalRealizedPnl := (closedTrades.map (fun t => t.realizedPnl.getD 0)).sum
    totalUnrealizedPnl := (openTrades.map (fun t => t.unrealizedPnl)).sum
    totalTrades := closedTrades.length
    wins := wins.length
    losses := losses.length }

/-- Trend classification values of the edge-decay metric. -/
inductive Trend
  | improving
  | stable
  | declining
deriving DecidableEq

/-- Edge-decay record of MetaMetrics from types.ts. -/
structure EdgeDecay where
  winRateTrend : Trend
  sharpeTrend : Trend
  last30DaysWinRate : ℚ
  previous30DaysWinRate : ℚ
deriving DecidableEq

/-- calculateEdgeDecay from metrics.ts.  `now` models `new Date()`.  Note the
source assigns `sharpeTrend` the constant `'stable'` (its comment:
`// TODO: implement properly`). -/
def calculateEdgeDecay (closedTrades : List PaperTrade) (now : ℤ) : EdgeDecay :=
  let thirtyDaysAgo := now - 30 * dayMs
  let sixtyDaysAgo := now - 60 * dayMs
  let last30 := closedTrades.filter (fun t =>
    match t.exitTime with
    | some e => decide (thirtyDaysAgo ≤ e)
    | none => false)
  let last30Wins := last30.filter (fun t => decide (0 < t.realizedPnl.getD 0))
  let last30DaysWinRate : ℚ :=
    if 0 < last30.length then ((last30Wins.length : ℚ) / (last30.length : ℚ)) * 100
    else 0
  let prev30 := closedTrades.filter (fun t =>
    match t.exitTime with
    | some e => decide (sixtyDaysAgo ≤ e ∧ e < thirtyDaysAgo)
    | none => false)
  let prev30Wins := prev30.filter (fun t => decide (0 < t.realizedPnl.getD 0))
  let previous30DaysWinRate : ℚ :=
    if 0 < prev30.length then ((prev30Wins.length : ℚ) / (prev30.length : ℚ)) * 100
    else 0
  let winRateDiff := last30DaysWinRate - previous30DaysWinRate
  let winRateTrend : Trend :=
    if 5 < winRateDiff then Trend.improving
    else if winRateDiff < -5 then Trend.declining
    else Trend.stable
  { winRateTrend := winRateTrend
    sharpeTrend := Trend.stable
    last30DaysWinRate := last30DaysWinRate
    previous30DaysWinRate := previous30DaysWinRate }

/-- DailySnapshot from types.ts; the date is a calendar-day index (see
`dateOf`). -/
structure DailySnapshot where
  date : ℤ
  equity : ℚ
  dailyPnl : ℚ
  openPositions : ℕ
  rolling7dWinRate : ℚ
  rolling7dSharpe : ℚ
deriving DecidableEq

/-- Model of the `findIndex`-then-assign-or-push upsert at the end of
`captureDailySnapshot`: replace the first record with the new snapshot's
date, or append when there is none. -/
def upsertByDate (snapshot : DailySnapshot) : List DailySnapshot → List DailySnapshot
  | [] => [snapshot]
  | s :: rest =>
    if s.date = snapshot.date then snapshot :: rest
    else s :: upsertByDate snapshot rest

/-- captureDailySnapshot from metrics.ts.  The trades, state and snapshot list
(read from disk in the source) and `new Date()` are parameters; the returned
pair is the snapshot and the saved snapshot list. -/
def captureDailySnapshot (trades : List PaperTrade) (state : PaperState)
    (snapshots : List DailySnapshot) (now : ℤ) : DailySnapshot × List DailySnapshot :=
  let today := dateOf now
  let closedToday := trades.filter (fun t =>
    match t.exitTime with
    | some e => decide (dateOf e = today)
    | none => false)
  let dailyPnl := (closedToday.map (fun t => t.realizedPnl.getD 0)).sum
  let sevenDaysAgo := now - 7 * dayMs
  let last7Days := trades.filter (fun t =>
    match t.exitTime with
    | some e => decide (sevenDaysAgo ≤ e)
    | none => false)
  let last7Wins := last7Days.filter (fun t => decide (0 < t.realizedPnl.getD 0))
  let rolling7dWinRate : ℚ :=
    if 0 < last7Days.length then ((last7Wins.length : ℚ) / (last7Days.length : ℚ)) * 100
    else 0
  let snapshot : DailySnapshot :=
    { date := today
      equity := state.currentEquity
      dailyPnl := dailyPnl
      openPositions := state.openPositions.length
      rolling7dWinRate := rolling7dWinRate
      rolling7dSharpe := 0 }
  (snapshot, upsertByDate snapshot snapshots)

-- ===========================================================================
-- Concrete fixtures used to instantiate the theorems below
-- ===========================================================================

/-- Default risk configuration of `loadRiskConfig` (no environment overrides). -/
def rcDefault : RiskConfig :=
  { maxPositionSize := 1/5
    maxConcurrentPositions := 3
    maxTotalExposure := 1/2
    stopLossThreshold := -(1/20)
    maxDrawdown := -(3/20)
    maxLeverage := 3
    consecutiveLossLimit := 3
    cooldownDays := 14 }

/-- Default leverage configuration of `loadLeverageConfig` with the default
`fixed` strategy and `PAPER_FIXED_LEVERAGE=1`. -/
def lcFixed : LeverageConfig := ⟨"fixed", 1, 6⟩

/-- Template trade used by the fixtures: a SHORT mean-reversion trade on HYPE
of notional 1000, shaped like the trades `openTrade` creates. -/
def baseTrade : PaperTrade :=
  { id := 0
    coin := "HYPE"
    direction := TradeDirection.SHORT
    strategy := "mean_reversion"
    status := TradeStatus.OPEN
    entryTime := 0
    entryApr := 3/20
    entryImpliedApr := 0
    entryZScore := 0
    notionalSize := 1000
    leverage := 1
    targetHoldDays := 7
    scheduledExitTime := 7 * dayMs
    exitTime := none
    exitApr := none
    exitZScore := none
    exitReason := none
    realizedPnl := none
    unrealizedPnl := 0
    fees := 1 }

/-- Alert fixture: a SHORT mean-reversion alert on HYPE with a 7-day hold. -/
def wAlert : TradeAlert := ⟨"mean_reversion", "HYPE", TradeDirection.SHORT, 3/20, 0, 0, 0, 1, 0, 7, 0⟩

/-- Result of opening `wAlert` on the fresh initial account. -/
def wOpen : OpenResult := openTrade wAlert (initialState 0) [] rcDefault lcFixed none 0 1

/-- The account/ledger pair reached by that single open. -/
def wPoint : PaperState × List PaperTrade := (wOpen.state, wOpen.trades)

/-- SHORT trade of the spec's numerical scenario: notional 10000, entry rate
0.15, holding the entry fee `10000 * TAKER_FEE_RATE` charged by `openTrade`. -/
def c5Trade : PaperTrade :=
  { baseTrade with
    id := 1
    notionalSize := 10000
    scheduledExitTime := 168 * hourMs
    fees := 10000 * TAKER_FEE_RATE }

/-- Account holding the scenario trade as the single open position. -/
def c5State : PaperState := ⟨[1], 10000, 10000, 10000, 0⟩

/-- Closing the scenario trade after 168 hours at observed rate 0.05. -/
def c5Close : CloseResult :=
  closeTrade c5Trade c5State [c5Trade] (1/20) 0 ExitReason.TIME_BASED (168 * hourMs)

/-- Open ETH position whose notional 4999 sits just under the default
exposure cap of `10000 * 0.5`. -/
def c9OpenTrade : PaperTrade :=
  { baseTrade with id := 0, coin := "ETH", notionalSize := 4999 }

/-- Account with that single open position. -/
def state9 : PaperState := ⟨[0], 10000, 10000, 10000, 0⟩

/-- Opening `wAlert` (coin HYPE, default position size 1000) on that account. -/
def res9 : OpenResult := openTrade wAlert state9 [c9OpenTrade] rcDefault lcFixed none 0 1

/-- Closed-trade ledger: one win closed 1 day ago, one loss closed 40 days
ago (relative to `c6Now`). -/
def c6Trades : List PaperTrade :=
  [{ baseTrade with
      id := 1
      status := TradeStatus.CLOSED
      exitTime := some (99 * dayMs)
      realizedPnl := some 10 },
   { baseTrade with
      id := 2
      status := TradeStatus.CLOSED
      exitTime := some (60 * dayMs)
      realizedPnl := some (-10) }]

/-- Evaluation instant for the edge-decay fixture. -/
def c6Now : ℤ := 100 * dayMs

/-- Ledger with exactly three CLOSED losing HYPE trades, the last exiting on
day 12. -/
def cooldownLedger : List PaperTrade :=
  [{ baseTrade with
      id := 1
      status := TradeStatus.CLOSED
      exitTime := some (10 * dayMs)
      realizedPnl := some (-5) },
   { baseTrade with
      id := 2
      status := TradeStatus.CLOSED
      exitTime := some (11 * dayMs)
      realizedPnl := some (-6) },
   { baseTrade with
      id := 3
      status := TradeStatus.CLOSED
      exitTime := some (12 * dayMs)
      realizedPnl := some (-7) }]

/-- Most recent `consecutiveLossLimit` closed HYPE trades of `cooldownLedger`
under the default risk configuration. -/
def c2Recent : List PaperTrade :=
  sliceLast rcDefault.consecutiveLossLimit
    (cooldownLedger.filter
      (fun t => decide (t.coin = "HYPE" ∧ t.status = TradeStatus.CLOSED)))

/-- Risk configuration rejecting everything through the concurrency cap. -/
def rcNoConcurrent : RiskConfig := { rcDefault with maxConcurrentPositions := 0 }

/-- Ledger with a single closed trade of realized P&L exactly 0. -/
def zeroPnlLedger : List PaperTrade :=
  [{ baseTrade with
      id := 1
      status := TradeStatus.CLOSED
      exitTime := some dayMs
      realizedPnl := some 0 }]

-- ===========================================================================
-- Helper lemmas
-- ===========================================================================

theorem qmin_eq_min (a b : ℚ) : qmin a b = min a b := (min_def a b).symm

theorem qmax_eq_max (a b : ℚ) : qmax a b = max a b := (max_def a b).symm

theorem qabs_eq_abs (a : ℚ) : qabs a = |a| := by
  unfold qabs
  by_cases h : a < 0
  · rw [if_pos h, abs_of_neg h]
  · rw [if_neg h, abs_of_nonneg (not_lt.mp h)]

theorem upsert_date_mem (s : DailySnapshot) (l : List DailySnapshot) :
    s.date ∈ (upsertByDate s l).map DailySnapshot.date := by
  induction l with
  | nil => simp [upsertByDate]
  | cons a rest ih =>
    by_cases h : a.date = s.date
    · simp [upsertByDate, h]
    · simp only [upsertByDate, if_neg h, List.map_cons, List.mem_cons]
      exact Or.inr ih

theorem upsert_length_of_mem (s : DailySnapshot) (l : List DailySnapshot)
    (h : s.date ∈ l.map DailySnapshot.date) :
    (upsertByDate s l).length = l.length := by
  induction l with
  | nil => simp at h
  | cons a rest ih =>
    by_cases hh : a.date = s.date
    · simp [upsertByDate, hh]
    · have hrest : s.date ∈ rest.map DailySnapshot.date := by
        rw [List.map_cons, List.mem_cons] at h
        rcases h with h1 | h1
        · exact absurd h1.symm hh
        · exact h1
      simp [upsertByDate, hh, ih hrest]

theorem upsert_dates_sub (s : DailySnapshot) (l : List DailySnapshot) (x : ℤ)
    (h : x ∈ (upsertByDate s l).map DailySnapshot.date) :
    x = s.date ∨ x ∈ l.map DailySnapshot.date := by
  induction l with
  | nil => simpa [upsertByDate] using h
  | cons a rest ih =>
    by_cases hh : a.date = s.date
    · simp only [upsertByDate, if_pos hh, List.map_cons, List.mem_cons] at h
      rcases h with h | h
      · exact Or.inl h
      · exact Or.inr (by simp [h])
    · simp only [upsertByDate, if_neg hh, List.map_cons, List.mem_cons] at h
      rcases h with h | h
      · exact Or.inr (by simp [h])
      · rcases ih h with h2 | h2
        · exact Or.inl h2
        · exact Or.inr (by simp [h2])

theorem upsert_nodup (s : DailySnapshot) (l : List DailySnapshot)
    (h : (l.map DailySnapshot.date).Nodup) :
    ((upsertByDate s l).map DailySnapshot.date).Nodup := by
  induction l with
  | nil => simp [upsertByDate]
  | cons a rest ih =>
    rw [List.map_cons, List.nodup_cons] at h
    by_cases hh : a.date = s.date
    · simp only [upsertByDate, if_pos hh, List.map_cons, List.nodup_cons]
      exact ⟨hh ▸ h.1, h.2⟩
    · simp only [upsertByDate, if_neg hh, List.map_cons, List.nodup_cons]
      refine ⟨?_, ih h.2⟩
      intro hmem
      rcases upsert_dates_sub s rest a.date hmem with h2 | h2
      · exact hh h2
      · exact h.1 h2

theorem closedRealizedSum_nil : closedRealizedSum [] = 0 := rfl

theorem closedRealizedSum_cons (a : PaperTrade) (l : List PaperTrade) :
    closedRealizedSum (a :: l)
      = (if a.status = TradeStatus.CLOSED then a.realizedPnl.getD 0 else 0)
        + closedRealizedSum l := by
  unfold closedRealizedSum getClosedTrades
  rw [List.filter_cons]
  by_cases h : a.status = TradeStatus.CLOSED
  · rw [if_pos (by simpa using h), if_pos h, List.map_cons, List.sum_cons]
  · rw [if_neg (by simpa using h), if_neg h, zero_add]

theorem closedRealizedSum_append (l1 l2 : List PaperTrade) :
    closedRealizedSum (l1 ++ l2) = closedRealizedSum l1 + closedRealizedSum l2 := by
  unfold closedRealizedSum getClosedTrades
  rw [List.filter_append, List.map_append, List.sum_append]

theorem map_replace_id_eq (l : List PaperTrade) (c : ℕ) (t2 : PaperTrade)
    (hnone : ∀ t ∈ l, t.id ≠ c) :
    l.map (fun t => if t.id = c then t2 else t) = l := by
  induction l with
  | nil => rfl
  | cons a rest ih =>
    rw [List.map_cons, if_neg (hnone a (by simp)),
      ih (fun t ht => hnone t (List.mem_cons_of_mem a ht))]

theorem closedRealizedSum_close (l : List PaperTrade) (trade t2 : PaperTrade)
    (hnd : (l.map PaperTrade.id).Nodup) (hmem : trade ∈ l)
    (hopen : trade.status = TradeStatus.OPEN)
    (hclosed : t2.status = TradeStatus.CLOSED) :
    closedRealizedSum (l.map (fun t => if t.id = trade.id then t2 else t))
      = closedRealizedSum l + t2.realizedPnl.getD 0 := by
  induction l with
  | nil => cases hmem
  | cons a rest ih =>
    rw [List.map_cons, List.nodup_cons] at hnd
    rcases List.mem_cons.mp hmem with heq | hmem2
    · subst heq
      rw [List.map_cons, if_pos rfl,
        map_replace_id_eq rest trade.id t2
          (fun t ht hid => hnd.1 (hid ▸ List.mem_map.mpr ⟨t, ht, rfl⟩)),
        closedRealizedSum_cons, closedRealizedSum_cons, if_pos hclosed, hopen]
      simp only [reduceCtorEq, if_false]
      ring
    · have hne : a.id ≠ trade.id := fun hid =>
        hnd.1 (hid ▸ List.mem_map.mpr ⟨trade, hmem2, rfl⟩)
      rw [List.map_cons, if_neg hne, closedRealizedSum_cons, closedRealizedSum_cons,
        ih hnd.2 hmem2]
      ring

theorem step_invariant {p q : PaperState × List PaperTrade} (hstep : Step p q)
    (he : p.1.currentEquity = p.1.startingCapital + closedRealizedSum p.2)
    (hn : (p.2.map PaperTrade.id).Nodup) :
    q.1.currentEquity = q.1.startingCapital + closedRealizedSum q.2 ∧
    (q.2.map PaperTrade.id).Nodup := by
  cases hstep with
  | openStep alert s tr rc lc ps now newId hfresh =>
    cases hco : canOpenTrade s tr alert.coin rc now with
    | some r =>
      constructor
      · simpa [openTrade, hco] using he
      · simpa [openTrade, hco] using hn
    | none =>
      constructor
      · simpa [openTrade, hco, closedRealizedSum_append, closedRealizedSum_cons,
          closedRealizedSum_nil] using he
      · simp only [openTrade, hco, List.map_append, List.map_cons, List.map_nil]
        rw [List.nodup_append]
        refine ⟨hn, List.nodup_singleton _, ?_⟩
        intro x hx hx1
        simp only [List.mem_singleton] at hx1
        obtain ⟨t, ht, hid⟩ := List.mem_map.mp hx
        exact hfresh t ht (by rw [hid, hx1])
  | closeStep trade s tr ea ez er now hmem hopen =>
    have hstat : (closeTrade trade s tr ea ez er now).trade.status = TradeStatus.CLOSED := rfl
    have hid2 : (closeTrade trade s tr ea ez er now).trade.id = trade.id := rfl
    have htr : (closeTrade trade s tr ea ez er now).trades
        = tr.map (fun t =>
            if t.id = trade.id then (closeTrade trade s tr ea ez er now).trade else t) := rfl
    have hsum := closedRealizedSum_close tr trade
      ((closeTrade trade s tr ea ez er now).trade) hn hmem hopen hstat
    constructor
    · have hcur : (closeTrade trade s tr ea ez er now).state.currentEquity
          = s.currentEquity
            + ((closeTrade trade s tr ea ez er now).trade.realizedPnl.getD 0) := rfl
      have hstart : (closeTrade trade s tr ea ez er now).state.startingCapital
          = s.startingCapital := rfl
      show (closeTrade trade s tr ea ez er now).state.currentEquity
        = (closeTrade trade s tr ea ez er now).state.startingCapital
          + closedRealizedSum (closeTrade trade s tr ea ez er now).trades
      rw [hcur, hstart, htr, hsum, he]
      ring
    · have hids : ((closeTrade trade s tr ea ez er now).trades).map PaperTrade.id
          = tr.map PaperTrade.id := by
        rw [htr, List.map_map]
        apply List.map_congr_left
        intro t ht
        by_cases hcase : t.id = trade.id
        · simp [Function.comp, hcase, hid2]
        · simp [Function.comp, hcase]
      show (((closeTrade trade s tr ea ez er now).trades).map PaperTrade.id).Nodup
      rw [hids]
      exact hn

theorem reachable_invariant (t0 : ℤ) (p : PaperState × List PaperTrade)
    (h : Reachable t0 p) :
    p.1.currentEquity = p.1.startingCapital + closedRealizedSum p.2 ∧
    (p.2.map PaperTrade.id).Nodup := by
  unfold Reachable at h
  induction h with
  | refl =>
    exact ⟨by simp [initialState, closedRealizedSum, getClosedTrades], by simp⟩
  | tail hrest hstep ih => exact step_invariant hstep ih.1 ih.2

theorem step_peak_mono {p q : PaperState × List PaperTrade} (hstep : Step p q) :
    p.1.peakEquity ≤ q.1.peakEquity := by
  cases hstep with
  | openStep alert s tr rc lc ps now newId hfresh =>
    cases hco : canOpenTrade s tr alert.coin rc now with
    | some r => simp [openTrade, hco]
    | none => simp [openTrade, hco]
  | closeStep trade s tr ea ez er now hmem hopen =>
    show s.peakEquity ≤ (closeTrade trade s tr ea ez er now).state.peakEquity
    simp only [closeTrade]
    split
    · next hlt => exact le_of_lt hlt
    · exact le_refl _

theorem step_peak_ge_equity {p q : PaperState × List PaperTrade} (hstep : Step p q)
    (h : p.1.currentEquity ≤ p.1.peakEquity) :
    q.1.currentEquity ≤ q.1.peakEquity := by
  cases hstep with
  | openStep alert s tr rc lc ps now newId hfresh =>
    cases hco : canOpenTrade s tr alert.coin rc now with
    | some r => simpa [openTrade, hco] using h
    | none => simpa [openTrade, hco] using h
  | closeStep trade s tr ea ez er now hmem hopen =>
    show (closeTrade trade s tr ea ez er now).state.currentEquity
      ≤ (closeTrade trade s tr ea ez er now).state.peakEquity
    simp only [closeTrade]
    split
    · exact le_refl _
    · next hge => exact not_lt.mp hge

theorem steps_peak {p q : PaperState × List PaperTrade}
    (h : Relation.ReflTransGen Step p q)
    (hp : p.1.currentEquity ≤ p.1.peakEquity) :
    q.1.currentEquity ≤ q.1.peakEquity ∧ p.1.peakEquity ≤ q.1.peakEquity := by
  induction h with
  | refl => exact ⟨hp, le_refl _⟩
  | tail hrest hstep ih =>
    exact ⟨step_peak_ge_equity hstep ih.1, le_trans ih.2 (step_peak_mono hstep)⟩

theorem length_filter_pos_le (l : List PaperTrade) :
    (l.filter (fun t => decide (0 < t.realizedPnl.getD 0))).length +
      (l.filter (fun t => decide (t.realizedPnl.getD 0 ≤ 0))).length = l.length := by
  induction l with
  | nil => rfl
  | cons a l ih =>
    simp only [List.filter_cons, decide_eq_true_eq]
    by_cases h : 0 < a.realizedPnl.getD 0
    · rw [if_pos h, if_neg (not_le.mpr h)]
      simp only [List.length_cons]
      omega
    · rw [if_neg h, if_pos (not_lt.mp h)]
      simp only [List.length_cons]
      omega

-- ===========================================================================
-- Claim theorems
-- ===========================================================================

/-- Claim C3, counterexample: with `maxLeverage = 1/2` (below 1) the result of
`calculateLeverage` is 1, which does not lie in `[1, maxLeverage]`, and the
`signal_strength` result at `|z| = 5` is not `min 6 maxLeverage`. -/
theorem leverage_clamp_counterexample :
    calculateLeverage ⟨"fixed", 5, 1/2⟩ 0 1 1 = 1 ∧
    ¬ calculateLeverage ⟨"fixed", 5, 1/2⟩ 0 1 1 ≤ (1/2 : ℚ) ∧
    calculateLeverage ⟨"signal_strength", 1, 1/2⟩ 5 1 1 ≠ min 6 (1/2 : ℚ) := by
  have h1 : calculateLeverage ⟨"fixed", 5, 1/2⟩ 0 1 1 = 1 := by
    simp [calculateLeverage, qmin, qmax]
    norm_num
  have h2 : calculateLeverage ⟨"signal_strength", 1, 1/2⟩ 5 1 1 = 1 := by
    simp [calculateLeverage, signalStrengthLeverage, qmin, qmax, qabs]
    norm_num
  have h3 : min 6 (1/2 : ℚ) = 1/2 := by
    rw [min_def]
    norm_num
  rw [h1, h2, h3]
  norm_num

/-- Claim C3 (amended: requires `1 ≤ config.maxLeverage`; the `max(·, 1)`
floor is applied after the `min(·, maxLeverage)` cap, so for caps below 1 the
result is 1, outside `[1, maxLeverage]`): for every leverage configuration
whose cap is at least 1 — any strategy string, including unmapped ones — and
all inputs, `calculateLeverage` lies in `[1, config.maxLeverage]`, and for a
`signal_strength` configuration with `|zScore| = 5` it equals
`min 6 config.maxLeverage`. -/
theorem leverage_clamp (config : LeverageConfig) (zScore currentEquity startingEquity : ℚ)
    (hcap : 1 ≤ config.maxLeverage) :
    (1 ≤ calculateLeverage config zScore currentEquity startingEquity ∧
      calculateLeverage config zScore currentEquity startingEquity ≤ config.maxLeverage) ∧
    (config.strategy = "signal_strength" → |zScore| = 5 →
      calculateLeverage config zScore currentEquity startingEquity
        = min 6 config.maxLeverage) := by
  unfold calculateLeverage
  simp only [qmax_eq_max, qmin_eq_min]
  refine ⟨⟨le_max_right _ _, max_le (min_le_right _ _) hcap⟩, ?_⟩
  intro hs hz
  have h6 : signalStrengthLeverage zScore = 6 := by
    unfold signalStrengthLeverage
    rw [qabs_eq_abs, hz]
    norm_num
  simp only [hs, h6]
  rw [if_neg (by decide : ¬ ("signal_strength" : String) = "fixed")]
  simp only [if_true]
  exact max_eq_left (le_min (by norm_num) hcap)

/-- Claim C3 witness: the amended theorem applied at the concrete
configuration `⟨"signal_strength", 1, 3⟩` and `zScore = 5`. -/
theorem leverage_clamp_witness :
    (1 : ℚ) ≤ (3 : ℚ) ∧
    ((1 ≤ calculateLeverage ⟨"signal_strength", 1, 3⟩ 5 1 1 ∧
        calculateLeverage ⟨"signal_strength", 1, 3⟩ 5 1 1 ≤ (3 : ℚ)) ∧
      (("signal_strength" : String) = "signal_strength" → |(5 : ℚ)| = 5 →
        calculateLeverage ⟨"signal_strength", 1, 3⟩ 5 1 1 = min 6 (3 : ℚ))) :=
  ⟨by norm_num, leverage_clamp ⟨"signal_strength", 1, 3⟩ 5 1 1 (by norm_num)⟩

/-- Claim C4: when the risk check fails with reason `r`, `openTrade` returns
a null trade with that reason, and both the account state and the ledger are
returned unchanged. -/
theorem open_rejection_pure (alert : TradeAlert) (state : PaperState)
    (trades : List PaperTrade) (rc : RiskConfig) (lc : LeverageConfig)
    (positionSize : Option ℚ) (now : ℤ) (newId : ℕ) (r : RejectReason)
    (h : canOpenTrade state trades alert.coin rc now = some r) :
    openTrade alert state trades rc lc positionSize now newId
      = ⟨none, some r, state, trades⟩ := by
  unfold openTrade
  rw [h]

/-- Claim C4 witness: opening under a zero concurrency cap is rejected and
leaves the fresh account and the empty ledger untouched. -/
theorem open_rejection_pure_witness :
    canOpenTrade (initialState 0) [] wAlert.coin rcNoConcurrent 0
        = some (RejectReason.maxConcurrent 0) ∧
    openTrade wAlert (initialState 0) [] rcNoConcurrent lcFixed none 0 1
        = ⟨none, some (RejectReason.maxConcurrent 0), initialState 0, []⟩ :=
  ⟨by simp [canOpenTrade, initialState, rcNoConcurrent, rcDefault, wAlert],
   open_rejection_pure wAlert (initialState 0) [] rcNoConcurrent lcFixed none 0 1
     (RejectReason.maxConcurrent 0)
     (by simp [canOpenTrade, initialState, rcNoConcurrent, rcDefault, wAlert])⟩

/-- Claim C5: for the SHORT scenario trade (notional 10000, entry rate 0.15)
held 168 hours at observed rate 0.05, `calculatePnl` returns
`(0.15/8760 - 0.05/8760) * 10000 * 168 = 1400/73 ≈ 19.18`, and closing it
charges the exit fee `notional × TAKER_FEE_RATE` on top of the equal entry
fee (10 + 10 = 20 in total), giving `realizedPnl = 1400/73 - 20 = -60/73 ≈
-0.82`. -/
theorem pnl_scenario :
    calculatePnl c5Trade (1/20) 168 = (3/20/8760 - 1/20/8760) * 10000 * 168 ∧
    calculatePnl c5Trade (1/20) 168 = 1400/73 ∧
    1918/100 - 1/100 < calculatePnl c5Trade (1/20) 168 ∧
    calculatePnl c5Trade (1/20) 168 < 1918/100 + 1/100 ∧
    c5Trade.fees = 10000 * TAKER_FEE_RATE ∧
    c5Close.trade.fees = c5Trade.fees + 10000 * TAKER_FEE_RATE ∧
    c5Close.trade.fees = 20 ∧
    c5Close.trade.realizedPnl = some (1400/73 - 20) ∧
    -(82/100) - 1/100 < (1400/73 - 20 : ℚ) ∧
    (1400/73 - 20 : ℚ) < -(82/100) + 1/100 := by
  simp [c5Close, closeTrade, c5Trade, baseTrade, TAKER_FEE_RATE, calculatePnl, hourMs]
  norm_num

/-- Claim C6, counterexample: on `c6Trades` at `c6Now` the last-30-days win
rate exceeds the prior-window win rate by more than 5 points (100 vs 0), the
code classifies `winRateTrend` as improving, yet `sharpeTrend` is not
`improving` — `calculateEdgeDecay` assigns it the constant `'stable'`. -/
theorem edge_decay_counterexample :
    5 < (calculateEdgeDecay c6Trades c6Now).last30DaysWinRate
          - (calculateEdgeDecay c6Trades c6Now).previous30DaysWinRate ∧
    (calculateEdgeDecay c6Trades c6Now).winRateTrend = Trend.improving ∧
    (calculateEdgeDecay c6Trades c6Now).sharpeTrend ≠ Trend.improving := by
  refine ⟨?_, ?_, ?_⟩ <;>
    simp [calculateEdgeDecay, c6Trades, c6Now, baseTrade, dayMs] <;>
    norm_num

/-- Claim C6 (amended: only `winRateTrend` is classified by the ±5-point rule
on the last-30-days vs prior-30-60-days delta; `sharpeTrend` is the constant
`'stable'`, an unimplemented placeholder in the source): for every closed-trade
list and instant. -/
theorem edge_decay_trends (closedTrades : List PaperTrade) (now : ℤ) :
    (calculateEdgeDecay closedTrades now).winRateTrend
      = (if 5 < (calculateEdgeDecay closedTrades now).last30DaysWinRate
              - (calculateEdgeDecay closedTrades now).previous30DaysWinRate then
          Trend.improving
        else if (calculateEdgeDecay closedTrades now).last30DaysWinRate
              - (calculateEdgeDecay closedTrades now).previous30DaysWinRate < -5 then
          Trend.declining
        else Trend.stable) ∧
    (calculateEdgeDecay closedTrades now).sharpeTrend = Trend.stable :=
  ⟨rfl, rfl⟩

/-- Claim C9 (implicit): the exposure check of `canOpenTrade` sums only the
already-open trades, so with 4999 of open notional against a cap of
`10000 × 0.5 = 5000` the open of a further default-size position is allowed,
and afterwards the open notional (5999) strictly exceeds the cap. -/
theorem exposure_check_gap :
    canOpenTrade state9 [c9OpenTrade] "HYPE" rcDefault 0 = none ∧
    res9.state.currentEquity * rcDefault.maxTotalExposure
      < ((getOpenTrades res9.trades res9.state).map (fun t => t.notionalSize)).sum := by
  constructor
  · simp [canOpenTrade, state9, c9OpenTrade, rcDefault, baseTrade, sliceLast, qabs, dayMs]
    norm_num
  · simp [res9, openTrade, canOpenTrade, getOpenTrades, state9, c9OpenTrade, rcDefault,
      lcFixed, wAlert, baseTrade, sliceLast, qabs, qmin, qmax, calculateLeverage,
      DEFAULT_POSITION_SIZE, TAKER_FEE_RATE, dayMs]
    norm_num

/-- Claim C10 (implicit): `calculatePrimaryMetrics` counts a closed trade as
a win exactly when its realized P&L is strictly positive and as a loss when
it is ≤ 0 (zero included), wins and losses partition the closed trades, and a
ledger whose closed trades all realized exactly 0 yields a win rate of 0. -/
theorem win_loss_partition (trades : List PaperTrade) (state : PaperState) :
    (calculatePrimaryMetrics trades state).wins
      = ((getClosedTrades trades).filter
          (fun t => decide (0 < t.realizedPnl.getD 0))).length ∧
    (calculatePrimaryMetrics trades state).losses
      = ((getClosedTrades trades).filter
          (fun t => decide (t.realizedPnl.getD 0 ≤ 0))).length ∧
    (calculatePrimaryMetrics trades state).wins + (calculatePrimaryMetrics trades state).losses
      = (getClosedTrades trades).length ∧
    ((∀ t ∈ getClosedTrades trades, t.realizedPnl.getD 0 = 0) →
      (calculatePrimaryMetrics trades state).winRate = 0) := by
  refine ⟨rfl, rfl, length_filter_pos_le _, ?_⟩
  intro hz
  have hempty : (getClosedTrades trades).filter
      (fun t => decide (0 < t.realizedPnl.getD 0)) = [] := by
    rw [List.filter_eq_nil_iff]
    intro t ht
    simp only [decide_eq_true_eq, not_lt, hz t ht, le_refl]
  show (if 0 < (getClosedTrades trades).length then
      ((((getClosedTrades trades).filter
          (fun t => decide (0 < t.realizedPnl.getD 0))).length : ℚ)
        / ((getClosedTrades trades).length : ℚ)) * 100
    else 0) = 0
  rw [hempty]
  split <;> simp

/-- Claim C10 witness: on a ledger with one closed trade of realized P&L 0,
wins + losses = 1 and the win rate is 0. -/
theorem win_loss_partition_witness :
    ((calculatePrimaryMetrics zeroPnlLedger (initialState 0)).wins
        + (calculatePrimaryMetrics zeroPnlLedger (initialState 0)).losses
      = (getClosedTrades zeroPnlLedger).length) ∧
    (calculatePrimaryMetrics zeroPnlLedger (initialState 0)).winRate = 0 :=
  ⟨(win_loss_partition zeroPnlLedger (initialState 0)).2.2.1,
   (win_loss_partition zeroPnlLedger (initialState 0)).2.2.2
     (by simp [getClosedTrades, zeroPnlLedger, baseTrade])⟩

/-- Claim C8: a snapshot capture on a calendar date already present replaces
that date's record (in particular a repeated same-day capture leaves the list
length unchanged), and capture preserves distinctness of the dates, so the
list never holds two records of the same date. -/
theorem snapshot_upsert_idempotent (trades trades2 : List PaperTrade)
    (state state2 : PaperState) (snapshots : List DailySnapshot) (now now2 : ℤ)
    (hday : dateOf now2 = dateOf now)
    (hnd : (snapshots.map DailySnapshot.date).Nodup) :
    ((captureDailySnapshot trades2 state2
        (captureDailySnapshot trades state snapshots now).2 now2).2).length
      = ((captureDailySnapshot trades state snapshots now).2).length ∧
    (((captureDailySnapshot trades state snapshots now).2).map DailySnapshot.date).Nodup ∧
    (((captureDailySnapshot trades2 state2
        (captureDailySnapshot trades state snapshots now).2 now2).2).map
      DailySnapshot.date).Nodup := by
  have hsnd : ∀ (tr : List PaperTrade) (st : PaperState) (sn : List DailySnapshot) (n : ℤ),
      (captureDailySnapshot tr st sn n).2 = upsertByDate (captureDailySnapshot tr st sn n).1 sn :=
    fun _ _ _ _ => rfl
  have hdate : ∀ (tr : List PaperTrade) (st : PaperState) (sn : List DailySnapshot) (n : ℤ),
      (captureDailySnapshot tr st sn n).1.date = dateOf n :=
    fun _ _ _ _ => rfl
  have hnd1 : (((captureDailySnapshot trades state snapshots now).2).map
      DailySnapshot.date).Nodup := by
    rw [hsnd]
    exact upsert_nodup _ _ hnd
  refine ⟨?_, hnd1, ?_⟩
  · rw [hsnd trades2 state2 _ now2]
    apply upsert_length_of_mem
    rw [hdate, hday, hsnd trades state snapshots now, ← hdate trades state snapshots now]
    exact upsert_date_mem _ _
  · rw [hsnd trades2 state2 _ now2]
    exact upsert_nodup _ _ hnd1

/-- Claim C8 witness: capturing on the empty snapshot list at time 0 and
again one hour later (the same calendar day) keeps the list at length 1, with
the date lists duplicate-free. -/
theorem snapshot_upsert_idempotent_witness :
    ((captureDailySnapshot [] (initialState 0)
        (captureDailySnapshot [] (initialState 0) [] 0).2 hourMs).2).length
      = ((captureDailySnapshot [] (initialState 0) [] 0).2).length ∧
    (((captureDailySnapshot [] (initialState 0) [] 0).2).map DailySnapshot.date).Nodup ∧
    (((captureDailySnapshot [] (initialState 0)
        (captureDailySnapshot [] (initialState 0) [] 0).2 hourMs).2).map
      DailySnapshot.date).Nodup :=
  snapshot_upsert_idempotent [] [] (initialState 0) (initialState 0) [] 0 hourMs
    (by simp only [dateOf, hourMs, dayMs]; decide) (by simp)

/-- Claim C1: from the initial state, after any sequence of `openTrade` and
`closeTrade` operations, the current equity equals the starting capital plus
the sum of `realizedPnl` over the CLOSED trades of the ledger; moreover every
`openTrade` call leaves the current equity unchanged, and every `closeTrade`
call adds exactly the closed trade's net P&L (its recorded `realizedPnl`). -/
theorem equity_consistency (t0 : ℤ) (p : PaperState × List PaperTrade)
    (h : Reachable t0 p) :
    p.1.currentEquity = p.1.startingCapital + closedRealizedSum p.2 ∧
    (∀ (alert : TradeAlert) (s : PaperState) (tr : List PaperTrade) (rc : RiskConfig)
        (lc : LeverageConfig) (ps : Option ℚ) (now : ℤ) (newId : ℕ),
      (openTrade alert s tr rc lc ps now newId).state.currentEquity = s.currentEquity) ∧
    (∀ (trade : PaperTrade) (s : PaperState) (tr : List PaperTrade) (ea ez : ℚ)
        (er : ExitReason) (now : ℤ),
      (closeTrade trade s tr ea ez er now).state.currentEquity
        = s.currentEquity
          + (closeTrade trade s tr ea ez er now).trade.realizedPnl.getD 0) := by
  refine ⟨(reachable_invariant t0 p h).1, ?_, ?_⟩
  · intro alert s tr rc lc ps now newId
    cases hco : canOpenTrade s tr alert.coin rc now with
    | some r => simp [openTrade, hco]
    | none => simp [openTrade, hco]
  · intro trade s tr ea ez er now
    rfl

/-- Claim C1 witness: the theorem applied to the state reached by one
successful `openTrade` from the initial account. -/
theorem equity_consistency_witness :
    wPoint.1.currentEquity = wPoint.1.startingCapital + closedRealizedSum wPoint.2 ∧
    (∀ (alert : TradeAlert) (s : PaperState) (tr : List PaperTrade) (rc : RiskConfig)
        (lc : LeverageConfig) (ps : Option ℚ) (now : ℤ) (newId : ℕ),
      (openTrade alert s tr rc lc ps now newId).state.currentEquity = s.currentEquity) ∧
    (∀ (trade : PaperTrade) (s : PaperState) (tr : List PaperTrade) (ea ez : ℚ)
        (er : ExitReason) (now : ℤ),
      (closeTrade trade s tr ea ez er now).state.currentEquity
        = s.currentEquity
          + (closeTrade trade s tr ea ez er now).trade.realizedPnl.getD 0) :=
  equity_consistency 0 wPoint
    (Relation.ReflTransGen.single
      (Step.openStep wAlert (initialState 0) [] rcDefault lcFixed none 0 1 (by simp)))

/-- Claim C7: along every sequence of open/close operations from the initial
state, the peak equity is at least the current equity and never decreases. -/
theorem peak_watermark (t0 : ℤ) (p q : PaperState × List PaperTrade)
    (h1 : Reachable t0 p) (h2 : Relation.ReflTransGen Step p q) :
    q.1.currentEquity ≤ q.1.peakEquity ∧ p.1.peakEquity ≤ q.1.peakEquity := by
  have hinit : (initialState t0, ([] : List PaperTrade)).1.currentEquity
      ≤ (initialState t0, ([] : List PaperTrade)).1.peakEquity := le_refl _
  exact steps_peak h2 (steps_peak h1 hinit).1

/-- Claim C7 witness: the theorem applied across the single opening step from
the initial account. -/
theorem peak_watermark_witness :
    wPoint.1.currentEquity ≤ wPoint.1.peakEquity ∧
    (initialState 0, ([] : List PaperTrade)).1.peakEquity ≤ wPoint.1.peakEquity :=
  peak_watermark 0 (initialState 0, []) wPoint Relation.ReflTransGen.refl
    (Relation.ReflTransGen.single
      (Step.openStep wAlert (initialState 0) [] rcDefault lcFixed none 0 1 (by simp)))

/-- Claim C2: when the four earlier risk checks pass (and the loss limit is
at least 1, so the source's `recentTrades[length-1]` access is meaningful),
`canOpenTrade` rejects exactly when the most recent `consecutiveLossLimit`
closed trades for the instrument all exist, all have negative realized P&L,
and `now` is before the last loss's exit time plus `cooldownDays`; with fewer
closed trades the check is skipped; and the rejection reason carries the
cooldown end date. -/
theorem cooldown_rule (state : PaperState) (trades : List PaperTrade) (coin : String)
    (rc : RiskConfig) (now : ℤ) (recent : List PaperTrade)
    (hrec : recent = sliceLast rc.consecutiveLossLimit
      (trades.filter (fun t => decide (t.coin = coin ∧ t.status = TradeStatus.CLOSED))))
    (hlimit : 1 ≤ rc.consecutiveLossLimit)
    (hconc : state.openPositions.length < rc.maxConcurrentPositions)
    (hcoin : ∀ t ∈ trades, t.id ∈ state.openPositions → t.coin ≠ coin)
    (hexp : ((trades.filter (fun t => decide (t.id ∈ state.openPositions))).map
        (fun t => t.notionalSize)).sum < state.currentEquity * rc.maxTotalExposure)
    (hdd : (state.peakEquity - state.currentEquity) / state.peakEquity
        < |rc.maxDrawdown|) :
    (canOpenTrade state trades coin rc now ≠ none ↔
      (recent.length = rc.consecutiveLossLimit ∧
        (∀ t ∈ recent, t.realizedPnl.getD 0 < 0) ∧
        ∃ lastLoss, recent.getLast? = some lastLoss ∧
          now < lastLoss.exitTime.getD 0 + rc.cooldownDays * dayMs)) ∧
    (∀ r, canOpenTrade state trades coin rc now = some r →
      ∃ lastLoss, recent.getLast? = some lastLoss ∧
        r = RejectReason.cooldown coin
              (lastLoss.exitTime.getD 0 + rc.cooldownDays * dayMs)
              rc.consecutiveLossLimit) := by
  have hdd2 : (state.peakEquity - state.currentEquity) / state.peakEquity
      < qabs rc.maxDrawdown := by rw [qabs_eq_abs]; exact hdd
  have hno : ¬ ∃ t ∈ trades.filter (fun t => decide (t.id ∈ state.openPositions)),
      t.coin = coin := by
    rintro ⟨t, ht, hc⟩
    rw [List.mem_filter, decide_eq_true_eq] at ht
    exact hcoin t ht.1 ht.2 hc
  have hmain : canOpenTrade state trades coin rc now
      = (if recent.length = rc.consecutiveLossLimit ∧
            ∀ t ∈ recent, t.realizedPnl.getD 0 < 0 then
          match recent.getLast? with
          | some lastLoss =>
            if now < lastLoss.exitTime.getD 0 + rc.cooldownDays * dayMs then
              some (RejectReason.cooldown coin
                (lastLoss.exitTime.getD 0 + rc.cooldownDays * dayMs)
                rc.consecutiveLossLimit)
            else none
          | none => none
        else none) := by
    simp only [canOpenTrade]
    rw [if_neg (not_le.mpr hconc), if_neg hno, if_neg (not_le.mpr hexp),
      if_neg (not_le.mpr hdd2), ← hrec]
  rw [hmain]
  by_cases hall : recent.length = rc.consecutiveLossLimit ∧
      ∀ t ∈ recent, t.realizedPnl.getD 0 < 0
  · rw [if_pos hall]
    have hne : recent ≠ [] := by
      intro h0
      have hl := hall.1
      rw [h0] at hl
      simp only [List.length_nil] at hl
      omega
    obtain ⟨lastLoss, hlast⟩ : ∃ x, recent.getLast? = some x := by
      cases hg : recent.getLast? with
      | some x => exact ⟨x, rfl⟩
      | none => exact absurd (List.getLast?_eq_none_iff.mp hg) hne
    simp only [hlast]
    by_cases ht : now < lastLoss.exitTime.getD 0 + rc.cooldownDays * dayMs
    · rw [if_pos ht]
      refine ⟨⟨fun _ => ⟨hall.1, hall.2, lastLoss, rfl, ht⟩, fun _ => by simp⟩, ?_⟩
      intro r hr
      exact ⟨lastLoss, rfl, (Option.some.inj hr).symm⟩
    · rw [if_neg ht]
      refine ⟨⟨fun hcon => absurd rfl hcon, ?_⟩, ?_⟩
      · rintro ⟨-, -, x, hx, hlt⟩
        cases Option.some.inj hx
        exact absurd hlt ht
      · intro r hr
        exact absurd hr (by simp)
  · rw [if_neg hall]
    refine ⟨⟨fun hcon => absurd rfl hcon, ?_⟩, ?_⟩
    · rintro ⟨h1, h2, -⟩
      exact absurd ⟨h1, h2⟩ hall
    · intro r hr
      exact absurd hr (by simp)

/-- Claim C2 witness: three consecutive closed HYPE losses, the last exiting
on day 12 with a 14-day cooldown, evaluated on day 13 — the theorem applies
with all four earlier checks passing. -/
theorem cooldown_rule_witness :
    (canOpenTrade (initialState 0) cooldownLedger "HYPE" rcDefault (13 * dayMs) ≠ none ↔
      (c2Recent.length = rcDefault.consecutiveLossLimit ∧
        (∀ t ∈ c2Recent, t.realizedPnl.getD 0 < 0) ∧
        ∃ lastLoss, c2Recent.getLast? = some lastLoss ∧
          13 * dayMs < lastLoss.exitTime.getD 0 + rcDefault.cooldownDays * dayMs)) ∧
    (∀ r, canOpenTrade (initialState 0) cooldownLedger "HYPE" rcDefault (13 * dayMs)
        = some r →
      ∃ lastLoss, c2Recent.getLast? = some lastLoss ∧
        r = RejectReason.cooldown "HYPE"
              (lastLoss.exitTime.getD 0 + rcDefault.cooldownDays * dayMs)
              rcDefault.consecutiveLossLimit) :=
  cooldown_rule (initialState 0) cooldownLedger "HYPE" rcDefault (13 * dayMs) c2Recent
    rfl
    (by norm_num [rcDefault])
    (by simp [initialState, rcDefault])
    (by simp [initialState])
    (by simp [initialState, rcDefault, cooldownLedger, baseTrade, DEFAULT_STARTING_CAPITAL])
    (by simp [initialState, rcDefault])

end Meridian
